import Mathlib

/-!
Verification of the firewall rule reconciliation core of
`do-firewall-allowlister` (package `pkg/digitalocean`, the netdata source
aggregation in `pkg/sources/netdata`, the `allow-current-ip` command in
`pkg/commands`, and the service driver).

The Go code is shallowly embedded: pure computations become Lean functions,
the stateful fetch/submit interaction with the DigitalOcean API becomes an
explicit operation trace (`DOOp`), and fallible Go functions returning
`(T, error)` become `Except String T`.
-/

deriving instance DecidableEq for Except

namespace DOAllow

/-! ## Model of the Go standard library address parsers

The normalizer `validateAndNormalizeSources` delegates to `net.ParseIP` and
`net.ParseCIDR`.  These are modelled below following the Go standard library
(`net/netip` `parseIPv4` / `parseIPv6` and `net.ParseCIDR`): dotted-quad
IPv4 with no leading zeros, RFC 4291 IPv6 text with `::` compression and an
optional embedded IPv4 tail, zones rejected, CIDR = address `/` decimal
prefix within the family's bit length. -/

/-- Hex digit value, in the order Go checks: `0-9`, `a-f`, `A-F`. -/
def hexVal (c : Char) : Option Nat :=
  if '0' ≤ c ∧ c ≤ '9' then some (c.toNat - 48)
  else if 'a' ≤ c ∧ c ≤ 'f' then some (c.toNat - 87)
  else if 'A' ≤ c ∧ c ≤ 'F' then some (c.toNat - 55)
  else none

/-- Model of Go `netip.parseIPv4Fields`: accumulator loop over the string,
rejecting leading zeros, values above 255, empty octets, and anything other
than exactly four dot-separated decimal octets.  Arguments: remaining
characters, current octet value, digits seen in the current octet, completed
octets. -/
def goParseIPv4Aux : List Char → Nat → Nat → List Nat → Option (List Nat)
  | [], val, digLen, fields =>
      if digLen = 0 then none
      else if fields.length < 3 then none
      else some (fields ++ [val])
  | c :: rest, val, digLen, fields =>
      if c.isDigit then
        if digLen = 1 ∧ val = 0 then none
        else
          let val' := val * 10 + (c.toNat - 48)
          if val' > 255 then none
          else goParseIPv4Aux rest val' (digLen + 1) fields
      else if c = '.' then
        if digLen = 0 then none
        else if rest = [] then none
        else if fields.length = 3 then none
        else goParseIPv4Aux rest 0 0 (fields ++ [val])
      else none

/-- Model of Go `netip.parseIPv4`: four bytes on success. -/
def goParseIPv4 (s : List Char) : Option (List Nat) :=
  goParseIPv4Aux s 0 0 []

/-- Read a run of hex digits (Go's inner field loop in `parseIPv6`),
rejecting fields above `0xffff`.  Returns the accumulated value, the number
of digits consumed, and the rest of the input. -/
def readHex : List Char → Nat → Nat → Option (Nat × Nat × List Char)
  | [], acc, off => some (acc, off, [])
  | c :: rest, acc, off =>
      match hexVal c with
      | some v =>
          let acc' := acc * 16 + v
          if acc' > 65535 then none else readHex rest acc' (off + 1)
      | none => some (acc, off, c :: rest)

/-- Post-loop step of Go `netip.parseIPv6`: expand the `::` ellipsis to the
missing zero bytes; a full 16-byte address must not also contain `::`. -/
def finishIPv6 (ip : List Nat) (ell : Option Nat) : Option (List Nat) :=
  if ip.length < 16 then
    match ell with
    | none => none
    | some e => some (ip.take e ++ List.replicate (16 - ip.length) 0 ++ ip.drop e)
  else
    match ell with
    | some _ => none
    | none => some ip

/-- Main loop of Go `netip.parseIPv6`: hex fields separated by colons, at
most one `::`, optional embedded IPv4 tail filling the final four bytes.
`fuel` bounds the recursion (each iteration consumes at least one
character). -/
def parseIPv6Loop : Nat → List Char → List Nat → Option Nat → Option (List Nat)
  | 0, _, _, _ => none
  | fuel + 1, s, ip, ell =>
      if ip.length < 16 then
        match readHex s 0 0 with
        | none => none
        | some (acc, off, rest) =>
          if off = 0 then none
          else
            match rest with
            | '.' :: _ =>
                if ell.isNone ∧ ip.length ≠ 12 then none
                else if ip.length + 4 > 16 then none
                else
                  match goParseIPv4 s with
                  | some bytes4 => finishIPv6 (ip ++ bytes4) ell
                  | none => none
            | _ =>
              let ip' := ip ++ [acc / 256, acc % 256]
              match rest with
              | [] => finishIPv6 ip' ell
              | ':' :: rest2 =>
                  match rest2 with
                  | [] => none
                  | ':' :: rest3 =>
                      if ell.isSome then none
                      else if rest3 = [] then finishIPv6 ip' (some ip'.length)
                      else parseIPv6Loop fuel rest3 ip' (some ip'.length)
                  | _ => parseIPv6Loop fuel rest2 ip' ell
              | _ => none
      else if s = [] then finishIPv6 ip ell else none

/-- Model of Go `netip.parseIPv6` as used through `net.ParseIP` (which
rejects any zone, hence any `%`). -/
def goParseIPv6 (s : List Char) : Option (List Nat) :=
  if s.contains '%' then none
  else
    match s with
    | ':' :: ':' :: rest =>
        if rest = [] then some (List.replicate 16 0)
        else parseIPv6Loop (rest.length + 1) rest [] (some 0)
    | _ => parseIPv6Loop (s.length + 1) s [] none

/-- Result of `net.ParseIP`, tagged by which textual family parsed.
`v4` carries 4 bytes, `v6` carries 16 bytes. -/
inductive GoIP where
  | v4 (bytes : List Nat)
  | v6 (bytes : List Nat)
deriving DecidableEq, Repr

/-- Dispatch of `netip.ParseAddr`: the first of `.`, `:`, `%` decides the
family; none of them means the string is not an address at all. -/
def ipDispatch : List Char → Option Bool
  | [] => none
  | c :: rest =>
      if c = '.' then some true
      else if c = ':' then some false
      else if c = '%' then none
      else ipDispatch rest

/-- Model of Go `net.ParseIP` over a character list. -/
def goParseIPChars (s : List Char) : Option GoIP :=
  match ipDispatch s with
  | some true => (goParseIPv4 s).map GoIP.v4
  | some false => (goParseIPv6 s).map GoIP.v6
  | none => none

/-- Model of Go `net.ParseIP`. -/
def goParseIP (s : String) : Option GoIP :=
  goParseIPChars s.data

/-- Model of Go `IP.To4() != nil`: true for dotted-quad addresses and for
16-byte addresses carrying the IPv4-mapped prefix `::ffff:0:0/96`. -/
def GoIP.to4IsSome : GoIP → Bool
  | .v4 _ => true
  | .v6 b =>
      decide (b.take 10 = List.replicate 10 0) && decide ((b.drop 10).take 2 = [255, 255])

/-- Split a character list at the first occurrence of `/`
(Go `byteIndex(s, '/')`). -/
def splitFirstSlash : List Char → Option (List Char × List Char)
  | [] => none
  | c :: rest =>
      if c = '/' then some ([], rest)
      else (splitFirstSlash rest).map (fun p => (c :: p.1, p.2))

/-- Model of Go `dtoi` combined with the `i == len(mask)` check of
`ParseCIDR`: the whole string must be decimal digits, nonempty, with value
below Go's `big` cutoff `0xFFFFFF`. -/
def dtoiAll (cs : List Char) : Option Nat :=
  if cs = [] then none
  else if cs.all Char.isDigit then
    let n := cs.foldl (fun acc c => acc * 10 + (c.toNat - 48)) 0
    if n ≥ 16777215 then none else some n
  else none

/-- Model of the success of Go `net.ParseCIDR` (the repository only tests
`err == nil`): address part parses as IPv4 or IPv6 and the prefix length is
a decimal number within the family's bit length. -/
def goParseCIDROk (s : String) : Bool :=
  match splitFirstSlash s.data with
  | none => false
  | some (addr, mask) =>
      match goParseIPChars addr with
      | none => false
      | some ip =>
          let iplen : Nat := match ip with | .v4 _ => 4 | .v6 _ => 16
          match dtoiAll mask with
          | none => false
          | some n => decide (n ≤ 8 * iplen)

/-! ## The address normalizer
(`validateAndNormalizeSources` in `pkg/digitalocean/digitalocean.go`). -/

/-- One iteration of the loop body of `validateAndNormalizeSources`: bare IP
addresses become `/32` or `/128` CIDRs depending on `To4()`, valid CIDR
blocks pass unchanged, anything else is an error. -/
def normalizeSource (source : String) : Except String String :=
  match goParseIP source with
  | some ip =>
      if ip.to4IsSome then .ok (source ++ "/32") else .ok (source ++ "/128")
  | none =>
      if goParseCIDROk source then .ok source
      else .error ("invalid IP address or CIDR block: " ++ source)

/-- `validateAndNormalizeSources` from `pkg/digitalocean/digitalocean.go`:
normalizes each source in order, returning on the first invalid entry with
no partial output. -/
def validateAndNormalizeSources : List String → Except String (List String)
  | [] => .ok []
  | s :: rest =>
      match normalizeSource s with
      | .ok v =>
          match validateAndNormalizeSources rest with
          | .ok vs => .ok (v :: vs)
          | .error e => .error e
      | .error e => .error e

example : normalizeSource "10.0.0.1" = .ok "10.0.0.1/32" := by rfl
example : normalizeSource "::1" = .ok "::1/128" := by rfl
example : normalizeSource "10.0.0.0/8" = .ok "10.0.0.0/8" := by rfl
example : (normalizeSource "not-an-ip").isOk = false := by decide
example : normalizeSource "::ffff:1.2.3.4" = .ok "::ffff:1.2.3.4/32" := by rfl
example : normalizeSource "2606:4700::1111" = .ok "2606:4700::1111/128" := by rfl
example : normalizeSource "2400:cb00::/32" = .ok "2400:cb00::/32" := by rfl
example : (normalizeSource "10.0.0.256").isOk = false := by decide
example : (normalizeSource "01.2.3.4").isOk = false := by decide
example : (validateAndNormalizeSources ["10.0.0.1", "bad"]).isOk = false := by decide

/-! ## Data model
(`godo.InboundRule`, `godo.Firewall`, `godo.FirewallRequest`,
`digitalocean.FirewallRule`).  Outbound rules, tags, and droplet IDs are
opaque passthrough payloads; they are modelled as strings / integers. -/

/-- A `godo.InboundRule`: protocol, port-range string, and the sources'
address list (`Sources` is a nullable pointer in Go, hence `Option`). -/
structure InboundRule where
  Protocol : String
  PortRange : String
  Sources : Option (List String)
deriving DecidableEq, Repr

/-- The fetched firewall snapshot (`godo.Firewall`), restricted to the
fields the repository reads. -/
structure Firewall where
  Name : String
  InboundRules : List InboundRule
  OutboundRules : List String
  Tags : List String
  DropletIDs : List Int
deriving DecidableEq, Repr

/-- A `godo.FirewallRequest` as built for `Firewalls.Update`. -/
structure FirewallRequest where
  Name : String
  InboundRules : List InboundRule
  OutboundRules : List String
  Tags : List String
  DropletIDs : List Int
deriving DecidableEq, Repr

/-- `digitalocean.FirewallRule`, the simplified managed-rule description. -/
structure FirewallRule where
  Port : Int
  Protocol : String
  Sources : List String
deriving DecidableEq, Repr

/-- The nil-guarded address list of a rule's `Sources` field. -/
def ruleAddrs (r : InboundRule) : List String :=
  match r.Sources with
  | some addrs => addrs
  | none => []

/-- One interaction with the DigitalOcean firewall store. -/
inductive DOOp where
  | getFirewall
  | submitUpdate (req : FirewallRequest)
deriving DecidableEq, Repr

/-- True if the trace contains a `Firewalls.Update` call. -/
def hasSubmit (ops : List DOOp) : Bool :=
  ops.any fun o => match o with | .submitUpdate _ => true | .getFirewall => false

/-! ## Bulk reconciliation
(`UpdateFirewallRules` in `pkg/digitalocean/digitalocean.go`). -/

/-- The loop "Add new rules for our managed ports": one rule emitted per
desired `FirewallRule`, validating `sourceIPs` afresh on every iteration
exactly as the Go loop does, aborting on the first validation error. -/
def buildManagedRules : List FirewallRule → List String → Except String (List InboundRule)
  | [], _ => .ok []
  | r :: rest, sourceIPs =>
      match validateAndNormalizeSources sourceIPs with
      | .error e => .error e
      | .ok validSources =>
          match buildManagedRules rest sourceIPs with
          | .error e => .error e
          | .ok tail =>
              .ok (⟨r.Protocol, toString r.Port, some validSources⟩ :: tail)

/-- The `managedPorts` set of `UpdateFirewallRules`, as the list of managed
port strings. -/
def managedPortStrings (rules : List FirewallRule) : List String :=
  rules.map fun r => toString r.Port

/-- The keep-condition of `UpdateFirewallRules`: an existing rule is kept
exactly when its `PortRange` is not a managed port string (protocol is not
consulted). -/
def unmanagedBulk (rules : List FirewallRule) (er : InboundRule) : Bool :=
  !((managedPortStrings rules).contains er.PortRange)

/-- The inbound-rule computation of `UpdateFirewallRules`: keep every
existing rule whose `PortRange` is not among the managed port strings, then
append one freshly built rule per desired rule. -/
def computeNewInboundRules (existing : List InboundRule) (rules : List FirewallRule)
    (sourceIPs : List String) : Except String (List InboundRule) :=
  let kept := existing.filter (unmanagedBulk rules)
  match buildManagedRules rules sourceIPs with
  | .error e => .error e
  | .ok newRules => .ok (kept ++ newRules)

/-- `UpdateFirewallRules` after the snapshot fetch: on success the full
update request (name, new inbound rules, and the snapshot's outbound rules,
tags, and droplet IDs passed through). -/
def updateFirewallRulesEff (fw : Firewall) (rules : List FirewallRule)
    (sourceIPs : List String) : Except String FirewallRequest :=
  match computeNewInboundRules fw.InboundRules rules sourceIPs with
  | .error e => .error e
  | .ok newInboundRules =>
      .ok ⟨fw.Name, newInboundRules, fw.OutboundRules, fw.Tags, fw.DropletIDs⟩

/-- Operation trace of `UpdateFirewallRules`: `GetFirewall` always runs
first; the update is submitted unless validation failed. -/
def updateFirewallRulesOps (fw : Firewall) (rules : List FirewallRule)
    (sourceIPs : List String) : List DOOp × Except String Unit :=
  match updateFirewallRulesEff fw rules sourceIPs with
  | .error e => ([DOOp.getFirewall], .error e)
  | .ok req => ([DOOp.getFirewall, DOOp.submitUpdate req], .ok ())

/-! ## Single-rule upsert
(`AddSSHRule` in `pkg/digitalocean/digitalocean.go`, the variant taking
`replaceExisting`). -/

/-- The scan "Find existing SSH rule for this port": index and value of the
first inbound rule with protocol `tcp` and the given port string. -/
def findFirstTcp : List InboundRule → Int → Option (Nat × InboundRule)
  | [], _ => none
  | r :: rest, port =>
      if r.Protocol == "tcp" && r.PortRange == toString port then some (0, r)
      else (findFirstTcp rest port).map fun p => (p.1 + 1, p.2)

/-- `AddSSHRule` after the snapshot fetch, as the update request it submits:
`ok none` is the early `return nil` ("IP already exists and we're not
replacing"), `ok (some req)` is the submitted update.  Go's error-message
wrapping is not modelled; error values pass through. -/
def addSSHRule (fw : Firewall) (sourceIP : String) (port : Int)
    (replaceExisting : Bool) : Except String (Option FirewallRequest) :=
  match validateAndNormalizeSources [sourceIP] with
  | .error e => .error e
  | .ok validSources =>
      match validSources with
      | [] => .error "index out of range"
      | v0 :: _ =>
          match findFirstTcp fw.InboundRules port with
          | some (idx, rule) =>
              let ipAlreadyExists : Bool := (ruleAddrs rule).contains v0
              if ipAlreadyExists && !replaceExisting then .ok none
              else
                let others := fw.InboundRules.eraseIdx idx
                let updatedAddresses :=
                  if replaceExisting then validSources
                  else
                    let base := ruleAddrs rule
                    if ipAlreadyExists then base else base ++ validSources
                .ok (some ⟨fw.Name,
                      others ++ [⟨"tcp", toString port, some updatedAddresses⟩],
                      fw.OutboundRules, fw.Tags, fw.DropletIDs⟩)
          | none =>
              .ok (some ⟨fw.Name,
                    fw.InboundRules ++ [⟨"tcp", toString port, some validSources⟩],
                    fw.OutboundRules, fw.Tags, fw.DropletIDs⟩)

/-- The value `AddSSHRule` actually returns to its caller: a bare `error`.
Both the no-op path and the submitted-update path return `nil`. -/
def addSSHRuleRet (fw : Firewall) (sourceIP : String) (port : Int)
    (replaceExisting : Bool) : Except String Unit :=
  match addSSHRule fw sourceIP port replaceExisting with
  | .error e => .error e
  | .ok _ => .ok ()

/-- Operation trace of `AddSSHRule`: `GetFirewall` runs first, before the
source IP is validated; the update is submitted only on the non-error,
non-no-op path. -/
def addSSHRuleOps (fw : Firewall) (sourceIP : String) (port : Int)
    (replaceExisting : Bool) : List DOOp × Except String Unit :=
  match addSSHRule fw sourceIP port replaceExisting with
  | .error e => ([DOOp.getFirewall], .error e)
  | .ok none => ([DOOp.getFirewall], .ok ())
  | .ok (some req) => ([DOOp.getFirewall, DOOp.submitUpdate req], .ok ())

/-- The `allow-current-ip` command (`runAllowCurrentIP` in
`pkg/commands/allow_current_ip.go`), non-dry-run path, with the detected
public IP supplied: the port range is validated before any firewall
operation, then `AddSSHRule` runs. -/
def runAllowCurrentIPOps (fw : Firewall) (currentIP : String) (port : Int)
    (removeExisting : Bool) : List DOOp × Except String Unit :=
  if port ≤ 0 ∨ port > 65535 then
    ([], .error ("invalid port " ++ toString port ++ " (must be 1-65535)"))
  else addSSHRuleOps fw currentIP port removeExisting

/-! ## Source aggregation
(`removeDuplicates` in `pkg/sources/netdata/netdata.go`, the IP-combining
step and provider error handling of `Service.UpdateFirewallRules`, and
`ResolveDomains`). -/

/-- The `seen`-map loop of `removeDuplicates`, with the set of already
emitted entries made explicit. -/
def removeDuplicatesAux : List String → List String → List String
  | [], _ => []
  | ip :: rest, seen =>
      if seen.contains ip then removeDuplicatesAux rest seen
      else ip :: removeDuplicatesAux rest (ip :: seen)

/-- `removeDuplicates`: drop repeated entries, keeping first occurrences in
order. -/
def removeDuplicates (ips : List String) : List String :=
  removeDuplicatesAux ips []

/-- The "Combine all IPs" step of `Service.UpdateFirewallRules`: plain
concatenation of the Cloudflare list and the netdata list. -/
def serviceCombineIPs (cloudflareIPs netdataIPs : List String) : List String :=
  cloudflareIPs ++ netdataIPs

/-- All IPs gathered by the domain loop of `ResolveDomains`: successful
domains' results concatenated in order, failures skipped. -/
def domainResultIPs (results : List (Except String (List String))) : List String :=
  (results.filterMap fun r =>
    match r with | .ok ips => some ips | .error _ => none).flatten

/-- Number of failed domains in the loop of `ResolveDomains`. -/
def domainResultErrCount (results : List (Except String (List String))) : Nat :=
  (results.filter fun r =>
    match r with | .error _ => true | .ok _ => false).length

/-- `ResolveDomains` given the per-domain resolution outcomes: errors only
when some domain failed and no IP at all was gathered; otherwise the
deduplicated collected IPs. -/
def resolveDomains (results : List (Except String (List String))) :
    Except String (List String) :=
  if domainResultErrCount results > 0 ∧ (domainResultIPs results).isEmpty then
    .error "failed to resolve any domains"
  else .ok (removeDuplicates (domainResultIPs results))

/-- Provider orchestration of `Service.UpdateFirewallRules`: the Cloudflare
fetch result and the netdata resolution result (each after its own
retries); failure of either aborts the cycle before any combination. -/
def serviceUpdateOutcome (cloudflare netdata : Except String (List String)) :
    Except String (List String) :=
  match cloudflare with
  | .error e => .error ("failed to fetch Cloudflare IPs: " ++ e)
  | .ok cfIPs =>
      match netdata with
      | .error e => .error ("failed to resolve Netdata IPs: " ++ e)
      | .ok ndIPs => .ok (serviceCombineIPs cfIPs ndIPs)

example :
    addSSHRule ⟨"fw", [⟨"tcp", "22", some ["5.5.5.5/32"]⟩], ["o"], ["t"], [7]⟩
      "6.6.6.6" 22 false =
    .ok (some ⟨"fw", [⟨"tcp", "22", some ["5.5.5.5/32", "6.6.6.6/32"]⟩], ["o"], ["t"], [7]⟩) := by
  rfl

example :
    addSSHRule ⟨"fw", [⟨"tcp", "22", some ["5.5.5.5/32"]⟩], ["o"], ["t"], [7]⟩
      "5.5.5.5" 22 false = .ok none := by
  rfl

example :
    addSSHRule ⟨"fw", [⟨"udp", "22", some ["5.5.5.5/32"]⟩], ["o"], ["t"], [7]⟩
      "5.5.5.5" 22 true =
    .ok (some ⟨"fw", [⟨"udp", "22", some ["5.5.5.5/32"]⟩, ⟨"tcp", "22", some ["5.5.5.5/32"]⟩],
          ["o"], ["t"], [7]⟩) := by
  rfl

example :
    computeNewInboundRules
      [⟨"tcp", "22", some ["1.2.3.4/32"]⟩, ⟨"tcp", "80", some ["0.0.0.0/0"]⟩]
      [⟨80, "tcp", []⟩] ["9.9.9.9", "8.8.8.8"] =
    .ok [⟨"tcp", "22", some ["1.2.3.4/32"]⟩, ⟨"tcp", "80", some ["9.9.9.9/32", "8.8.8.8/32"]⟩] := by
  rfl

example : removeDuplicates ["a", "b", "b", "c"] = ["a", "b", "c"] := by rfl

/-- The complement of the match-condition of `AddSSHRule`: rules untouched
by the single-rule upsert for `port`. -/
def notTcpMatch (port : Int) (r : InboundRule) : Bool :=
  !(r.Protocol == "tcp" && r.PortRange == toString port)

/-- A sample snapshot used by concrete counterexamples and witnesses: one
tcp/22 rule allowing `5.5.5.5/32`, with passthrough payloads attached. -/
def sampleFw : Firewall :=
  ⟨"sample", [⟨"tcp", "22", some ["5.5.5.5/32"]⟩], ["outRule"], ["k8s"], [42]⟩

/-! ## Supporting lemmas -/

/-- The rules built by the managed-rule loop all carry a desired rule's
protocol and port string. -/
theorem buildManagedRules_mem {rules : List FirewallRule} {ips : List String}
    {l : List InboundRule} (h : buildManagedRules rules ips = .ok l) :
    ∀ x ∈ l, ∃ dr ∈ rules, ∃ vs, x = ⟨dr.Protocol, toString dr.Port, some vs⟩ := by
  induction rules generalizing l with
  | nil =>
      rw [buildManagedRules] at h
      injection h with h'
      subst h'
      intro x hx
      simp at hx
  | cons r rest ih =>
      rw [buildManagedRules] at h
      cases hv : validateAndNormalizeSources ips with
      | error e => rw [hv] at h; exact absurd h (by simp)
      | ok vs =>
          rw [hv] at h
          cases hb : buildManagedRules rest ips with
          | error e => rw [hb] at h; exact absurd h (by simp)
          | ok tail =>
              rw [hb] at h
              injection h with h'
              subst h'
              intro x hx
              rcases List.mem_cons.mp hx with hx | hx
              · exact ⟨r, List.mem_cons_self r rest, vs, hx⟩
              · obtain ⟨dr, hdr, vs', hvs'⟩ := ih hb x hx
                exact ⟨dr, List.mem_cons_of_mem r hdr, vs', hvs'⟩

/-- Membership of a desired rule's port string in the managed-port list. -/
theorem managedPortStrings_contains {rules : List FirewallRule} {dr : FirewallRule}
    (h : dr ∈ rules) :
    (managedPortStrings rules).contains (toString dr.Port) = true := by
  exact List.elem_eq_true_of_mem (List.mem_map.mpr ⟨dr, h, rfl⟩)

/-- Rules that survive the keep-filter are untouched; the keep-filter of the
output of one bulk run keeps exactly the previously kept rules. -/
theorem filter_unmanagedBulk_output {ex : List InboundRule} {rules : List FirewallRule}
    {ips : List String} {newRules : List InboundRule}
    (hb : buildManagedRules rules ips = .ok newRules) :
    (ex.filter (unmanagedBulk rules) ++ newRules).filter (unmanagedBulk rules) =
      ex.filter (unmanagedBulk rules) := by
  rw [List.filter_append]
  have h1 : (ex.filter (unmanagedBulk rules)).filter (unmanagedBulk rules) =
      ex.filter (unmanagedBulk rules) := by
    rw [List.filter_eq_self]
    intro a ha
    exact List.of_mem_filter ha
  have h2 : newRules.filter (unmanagedBulk rules) = [] := by
    rw [List.filter_eq_nil_iff]
    intro x hx
    obtain ⟨dr, hdr, vs, hvs⟩ := buildManagedRules_mem hb x hx
    subst hvs
    simp [unmanagedBulk, managedPortStrings]
    exact ⟨dr, hdr, rfl⟩
  rw [h1, h2, List.append_nil]

/-- Removing the first tcp match for the port keeps every non-matching rule
in its original relative order. -/
theorem filter_notTcpMatch_sublist_eraseIdx (port : Int) :
    ∀ (l : List InboundRule) (idx : Nat) (rule : InboundRule),
      findFirstTcp l port = some (idx, rule) →
      (l.filter (notTcpMatch port)).Sublist (l.eraseIdx idx) := by
  intro l
  induction l with
  | nil => intro idx rule h; rw [findFirstTcp] at h; exact absurd h (by simp)
  | cons c rest ih =>
      intro idx rule h
      rw [findFirstTcp] at h
      by_cases hc : (c.Protocol == "tcp" && c.PortRange == toString port) = true
      · rw [if_pos hc] at h
        injection h with h'
        injection h' with h1 h2
        subst h1
        have hfc : notTcpMatch port c = false := by
          simp [notTcpMatch, hc]
        rw [List.filter_cons_of_neg (by simp [hfc]), List.eraseIdx_cons_zero]
        exact List.filter_sublist rest
      · rw [if_neg hc] at h
        cases hr : findFirstTcp rest port with
        | none => rw [hr] at h; exact absurd h (by simp)
        | some p =>
            obtain ⟨i, r⟩ := p
            rw [hr] at h
            simp only [Option.map_some'] at h
            injection h with h'
            injection h' with h1 h2
            subst h1
            have hfc : notTcpMatch port c = true := by
              simp only [notTcpMatch]
              simp [hc]
            rw [List.filter_cons_of_pos hfc, List.eraseIdx_cons_succ]
            exact List.Sublist.cons₂ c (ih i r hr)

/-- Membership in the deduplicated list: present in the input and not among
the already-seen entries. -/
theorem removeDuplicatesAux_mem : ∀ (l seen : List String) (x : String),
    x ∈ removeDuplicatesAux l seen ↔ x ∈ l ∧ x ∉ seen := by
  intro l
  induction l with
  | nil => intro seen x; simp [removeDuplicatesAux]
  | cons a rest ih =>
      intro seen x
      rw [removeDuplicatesAux]
      by_cases ha : seen.contains a = true
      · rw [if_pos ha, ih]
        constructor
        · rintro ⟨hx, hns⟩
          exact ⟨List.mem_cons_of_mem a hx, hns⟩
        · rintro ⟨hx, hns⟩
          rcases List.mem_cons.mp hx with rfl | hx
          · exact absurd (List.mem_of_elem_eq_true ha) hns
          · exact ⟨hx, hns⟩
      · rw [if_neg ha]
        constructor
        · intro hx
          rcases List.mem_cons.mp hx with rfl | hx
          · refine ⟨List.mem_cons_self _ _, fun hs => ?_⟩
            exact ha (List.elem_eq_true_of_mem hs)
          · obtain ⟨h1, h2⟩ := (ih (a :: seen) x).mp hx
            exact ⟨List.mem_cons_of_mem a h1, fun hs => h2 (List.mem_cons_of_mem a hs)⟩
        · rintro ⟨hx, hns⟩
          rcases List.mem_cons.mp hx with rfl | hx
          · exact List.mem_cons_self _ _
          · by_cases hxa : x = a
            · subst hxa; exact List.mem_cons_self _ _
            · refine List.mem_cons_of_mem a ((ih (a :: seen) x).mpr ⟨hx, ?_⟩)
              intro hs
              rcases List.mem_cons.mp hs with h | h
              · exact hxa h
              · exact hns h

/-- The deduplicated list has no duplicates. -/
theorem removeDuplicatesAux_nodup : ∀ (l seen : List String),
    (removeDuplicatesAux l seen).Nodup := by
  intro l
  induction l with
  | nil => intro seen; simp [removeDuplicatesAux]
  | cons a rest ih =>
      intro seen
      rw [removeDuplicatesAux]
      by_cases ha : seen.contains a = true
      · rw [if_pos ha]; exact ih seen
      · rw [if_neg ha]
        refine List.nodup_cons.mpr ⟨?_, ih (a :: seen)⟩
        intro hmem
        exact ((removeDuplicatesAux_mem rest (a :: seen) a).mp hmem).2
          (List.mem_cons_self a seen)

/-- The deduplicated list keeps surviving entries in their original
relative order. -/
theorem removeDuplicatesAux_sublist : ∀ (l seen : List String),
    (removeDuplicatesAux l seen).Sublist l := by
  intro l
  induction l with
  | nil => intro seen; simp [removeDuplicatesAux]
  | cons a rest ih =>
      intro seen
      rw [removeDuplicatesAux]
      by_cases ha : seen.contains a = true
      · rw [if_pos ha]
        exact (ih seen).trans (List.sublist_cons_self a rest)
      · rw [if_neg ha]
        exact List.Sublist.cons₂ a (ih (a :: seen))

/-- Inversion of a successful bulk computation. -/
theorem computeNewInboundRules_ok_inv {ex : List InboundRule}
    {rules : List FirewallRule} {ips : List String} {out : List InboundRule}
    (h : computeNewInboundRules ex rules ips = .ok out) :
    ∃ nr, buildManagedRules rules ips = .ok nr ∧
      out = ex.filter (unmanagedBulk rules) ++ nr := by
  rw [computeNewInboundRules] at h
  revert h
  cases hb : buildManagedRules rules ips with
  | error e => intro h; simp at h
  | ok nr => intro h; injection h with h'; exact ⟨nr, rfl, h'.symm⟩

/-! ## Claim theorems -/

/-- C3: the inbound-rule computation of `UpdateFirewallRules` is
idempotent: applied to its own output with the same desired rules and the
same source list, it returns that output unchanged. -/
theorem updateFirewallRules_idempotent {ex : List InboundRule}
    {rules : List FirewallRule} {ips : List String} {out : List InboundRule}
    (h : computeNewInboundRules ex rules ips = .ok out) :
    computeNewInboundRules out rules ips = .ok out := by
  obtain ⟨newRules, hb, hout⟩ :
      ∃ nr, buildManagedRules rules ips = .ok nr ∧
        out = ex.filter (unmanagedBulk rules) ++ nr := by
    rw [computeNewInboundRules] at h
    revert h
    cases hb : buildManagedRules rules ips with
    | error e => intro h; simp at h
    | ok nr => intro h; injection h with h'; exact ⟨nr, rfl, h'.symm⟩
  subst hout
  rw [computeNewInboundRules, hb]
  exact congrArg Except.ok (by rw [filter_unmanagedBulk_output hb])

/-- C3 witness: a concrete snapshot and desired rule list on which the bulk
computation is applied twice. -/
theorem updateFirewallRules_idempotent_witness :
    computeNewInboundRules
        [⟨"tcp", "22", some ["1.2.3.4/32"]⟩, ⟨"tcp", "80", some ["0.0.0.0/0"]⟩]
        [⟨80, "tcp", []⟩] ["9.9.9.9"] =
      .ok [⟨"tcp", "22", some ["1.2.3.4/32"]⟩, ⟨"tcp", "80", some ["9.9.9.9/32"]⟩] ∧
    computeNewInboundRules
        [⟨"tcp", "22", some ["1.2.3.4/32"]⟩, ⟨"tcp", "80", some ["9.9.9.9/32"]⟩]
        [⟨80, "tcp", []⟩] ["9.9.9.9"] =
      .ok [⟨"tcp", "22", some ["1.2.3.4/32"]⟩, ⟨"tcp", "80", some ["9.9.9.9/32"]⟩] :=
  ⟨by rfl,
   @updateFirewallRules_idempotent
     [⟨"tcp", "22", some ["1.2.3.4/32"]⟩, ⟨"tcp", "80", some ["0.0.0.0/0"]⟩]
     [⟨80, "tcp", []⟩] ["9.9.9.9"]
     [⟨"tcp", "22", some ["1.2.3.4/32"]⟩, ⟨"tcp", "80", some ["9.9.9.9/32"]⟩]
     (by rfl)⟩

/-- C10: the bulk computation matches existing rules to managed ports by
port string alone; an existing rule on a managed port whose protocol
differs from every desired rule on that port is absent from the result. -/
theorem bulk_replaces_other_protocol {ex : List InboundRule}
    {rules : List FirewallRule} {ips : List String} {out : List InboundRule}
    {er : InboundRule} (h : computeNewInboundRules ex rules ips = .ok out)
    (hmem : er ∈ ex)
    (hmanaged : (managedPortStrings rules).contains er.PortRange = true)
    (hproto : ∀ dr ∈ rules, toString dr.Port = er.PortRange →
      dr.Protocol ≠ er.Protocol) :
    er ∉ out := by
  rw [computeNewInboundRules] at h
  cases hb : buildManagedRules rules ips with
  | error e => rw [hb] at h; exact absurd h (by simp)
  | ok newRules =>
      rw [hb] at h
      injection h with h'
      subst h'
      intro hout
      rcases List.mem_append.mp hout with hk | hn
      · have hf := List.of_mem_filter hk
        simp only [unmanagedBulk, Bool.not_eq_true'] at hf
        rw [hmanaged] at hf
        exact absurd hf (by simp)
      · obtain ⟨dr, hdr, vs, rfl⟩ := buildManagedRules_mem hb er hn
        exact hproto dr hdr rfl rfl

/-- C10 witness: an existing udp rule on managed tcp port 80 disappears
from the computed rule set. -/
theorem bulk_replaces_other_protocol_witness :
    (⟨"udp", "80", some ["1.2.3.4/32"]⟩ : InboundRule) ∉
      [(⟨"tcp", "80", some ["9.9.9.9/32"]⟩ : InboundRule)] ∧
    computeNewInboundRules [⟨"udp", "80", some ["1.2.3.4/32"]⟩]
        [⟨80, "tcp", []⟩] ["9.9.9.9"] =
      .ok [⟨"tcp", "80", some ["9.9.9.9/32"]⟩] :=
  ⟨@bulk_replaces_other_protocol
      [⟨"udp", "80", some ["1.2.3.4/32"]⟩]
      [⟨80, "tcp", []⟩] ["9.9.9.9"]
      [⟨"tcp", "80", some ["9.9.9.9/32"]⟩]
      ⟨"udp", "80", some ["1.2.3.4/32"]⟩
      (by rfl) (by simp) (by rfl)
      (by intro dr hdr hport; simp at hdr; subst hdr; simp),
   by rfl⟩

/-- C2: both reconciliation operations submit requests carrying the fetched
snapshot's outbound rules, tags, and droplet attachments unchanged, and the
existing inbound rules on unmanaged ports appear unchanged, in their
original relative order, within the submitted inbound rule list. -/
theorem reconciliation_frame :
    (∀ (fw : Firewall) (rules : List FirewallRule) (ips : List String)
        (req : FirewallRequest), updateFirewallRulesEff fw rules ips = .ok req →
        req.OutboundRules = fw.OutboundRules ∧ req.Tags = fw.Tags ∧
        req.DropletIDs = fw.DropletIDs ∧
        (fw.InboundRules.filter (unmanagedBulk rules)).Sublist req.InboundRules) ∧
    (∀ (fw : Firewall) (ip : String) (port : Int) (mode : Bool)
        (req : FirewallRequest), addSSHRule fw ip port mode = .ok (some req) →
        req.OutboundRules = fw.OutboundRules ∧ req.Tags = fw.Tags ∧
        req.DropletIDs = fw.DropletIDs ∧
        (fw.InboundRules.filter (notTcpMatch port)).Sublist req.InboundRules) := by
  constructor
  · intro fw rules ips req h
    rw [updateFirewallRulesEff] at h
    revert h
    cases hc : computeNewInboundRules fw.InboundRules rules ips with
    | error e => intro h; simp at h
    | ok newInbound =>
        intro h
        injection h with h'
        subst h'
        refine ⟨rfl, rfl, rfl, ?_⟩
        obtain ⟨nr, _, hout⟩ := computeNewInboundRules_ok_inv hc
        subst hout
        exact List.sublist_append_left _ _
  · intro fw ip port mode req h
    cases hv : validateAndNormalizeSources [ip] with
    | error e => rw [addSSHRule] at h; rw [hv] at h; simp at h
    | ok vs =>
        rw [addSSHRule] at h
        rw [hv] at h
        cases vs with
        | nil => simp at h
        | cons v0 rest =>
            revert h
            cases hf : findFirstTcp fw.InboundRules port with
            | none =>
                intro h
                simp only [] at h
                injection h with h'
                injection h' with h''
                subst h''
                refine ⟨rfl, rfl, rfl, ?_⟩
                exact (List.filter_sublist _).trans (List.sublist_append_left _ _)
            | some p =>
                obtain ⟨idx, rule⟩ := p
                intro h
                simp only [] at h
                by_cases hae : ((ruleAddrs rule).contains v0 && !mode) = true
                · rw [if_pos hae] at h
                  simp at h
                · rw [if_neg hae] at h
                  injection h with h'
                  injection h' with h''
                  subst h''
                  refine ⟨rfl, rfl, rfl, ?_⟩
                  exact (filter_notTcpMatch_sublist_eraseIdx port _ idx rule hf).trans
                    (List.sublist_append_left _ _)

/-- C2 witness: a concrete run of each operation, checking the passthrough
fields and the preservation of the unmanaged port-22 rule. -/
theorem reconciliation_frame_witness :
    updateFirewallRulesEff
        ⟨"fw", [⟨"tcp", "22", some ["1.2.3.4/32"]⟩], ["out0"], ["tag0"], [11]⟩
        [⟨80, "tcp", []⟩] ["9.9.9.9"] =
      .ok ⟨"fw", [⟨"tcp", "22", some ["1.2.3.4/32"]⟩, ⟨"tcp", "80", some ["9.9.9.9/32"]⟩],
            ["out0"], ["tag0"], [11]⟩ ∧
    (⟨"fw", [⟨"tcp", "22", some ["1.2.3.4/32"]⟩, ⟨"tcp", "80", some ["9.9.9.9/32"]⟩],
        ["out0"], ["tag0"], [11]⟩ : FirewallRequest).OutboundRules = ["out0"] ∧
    (List.filter (unmanagedBulk [⟨80, "tcp", []⟩]) [⟨"tcp", "22", some ["1.2.3.4/32"]⟩]).Sublist
      [⟨"tcp", "22", some ["1.2.3.4/32"]⟩, ⟨"tcp", "80", some ["9.9.9.9/32"]⟩] :=
  ⟨by rfl,
   (reconciliation_frame.1
      ⟨"fw", [⟨"tcp", "22", some ["1.2.3.4/32"]⟩], ["out0"], ["tag0"], [11]⟩
      [⟨80, "tcp", []⟩] ["9.9.9.9"]
      ⟨"fw", [⟨"tcp", "22", some ["1.2.3.4/32"]⟩, ⟨"tcp", "80", some ["9.9.9.9/32"]⟩],
        ["out0"], ["tag0"], [11]⟩ (by rfl)).1,
   (reconciliation_frame.1
      ⟨"fw", [⟨"tcp", "22", some ["1.2.3.4/32"]⟩], ["out0"], ["tag0"], [11]⟩
      [⟨80, "tcp", []⟩] ["9.9.9.9"]
      ⟨"fw", [⟨"tcp", "22", some ["1.2.3.4/32"]⟩, ⟨"tcp", "80", some ["9.9.9.9/32"]⟩],
        ["out0"], ["tag0"], [11]⟩ (by rfl)).2.2.2⟩

/-- C1: the single-rule upsert decision table.  With no existing tcp rule
for the port, both modes append a brand-new rule with sources exactly the
normalized IP.  With an existing rule not containing the IP, append mode
rewrites the rule's sources to the prior list followed by the normalized
IP (prior entries and order retained) while replace mode rewrites them to
exactly the normalized IP.  With an existing rule already containing the
IP, append mode submits nothing and replace mode rewrites the sources to
exactly the normalized IP. -/
theorem addSSHRule_decision_table (fw : Firewall) (ip : String) (port : Int)
    (v : String) (_hlo : 1 ≤ port) (_hhi : port ≤ 65535)
    (hv : validateAndNormalizeSources [ip] = .ok [v]) :
    (findFirstTcp fw.InboundRules port = none →
      ∀ mode, addSSHRule fw ip port mode =
        .ok (some ⟨fw.Name, fw.InboundRules ++ [⟨"tcp", toString port, some [v]⟩],
              fw.OutboundRules, fw.Tags, fw.DropletIDs⟩)) ∧
    (∀ idx rule, findFirstTcp fw.InboundRules port = some (idx, rule) →
      (ruleAddrs rule).contains v = false →
      addSSHRule fw ip port false =
        .ok (some ⟨fw.Name,
              fw.InboundRules.eraseIdx idx ++
                [⟨"tcp", toString port, some (ruleAddrs rule ++ [v])⟩],
              fw.OutboundRules, fw.Tags, fw.DropletIDs⟩) ∧
      addSSHRule fw ip port true =
        .ok (some ⟨fw.Name,
              fw.InboundRules.eraseIdx idx ++ [⟨"tcp", toString port, some [v]⟩],
              fw.OutboundRules, fw.Tags, fw.DropletIDs⟩)) ∧
    (∀ idx rule, findFirstTcp fw.InboundRules port = some (idx, rule) →
      (ruleAddrs rule).contains v = true →
      addSSHRule fw ip port false = .ok none ∧
      addSSHRule fw ip port true =
        .ok (some ⟨fw.Name,
              fw.InboundRules.eraseIdx idx ++ [⟨"tcp", toString port, some [v]⟩],
              fw.OutboundRules, fw.Tags, fw.DropletIDs⟩)) := by
  refine ⟨?_, ?_, ?_⟩
  · intro hf mode
    rw [addSSHRule, hv, hf]
  · intro idx rule hf hcont
    constructor
    · rw [addSSHRule, hv, hf]
      simp only [hcont]
      rfl
    · rw [addSSHRule, hv, hf]
      simp only [hcont]
      rfl
  · intro idx rule hf hcont
    constructor
    · rw [addSSHRule, hv, hf]
      simp only [hcont]
      rfl
    · rw [addSSHRule, hv, hf]
      simp only [hcont]
      rfl

/-- C1 witness: appending a fresh IP to an existing one-entry tcp/22 rule
keeps the prior source first and the new one second. -/
theorem addSSHRule_decision_table_witness :
    validateAndNormalizeSources ["6.6.6.6"] = .ok ["6.6.6.6/32"] ∧
    addSSHRule ⟨"fw", [⟨"tcp", "22", some ["5.5.5.5/32"]⟩], ["o"], ["t"], [7]⟩
        "6.6.6.6" 22 false =
      .ok (some ⟨"fw", [⟨"tcp", "22", some ["5.5.5.5/32", "6.6.6.6/32"]⟩],
            ["o"], ["t"], [7]⟩) :=
  ⟨by rfl,
   ((addSSHRule_decision_table
      ⟨"fw", [⟨"tcp", "22", some ["5.5.5.5/32"]⟩], ["o"], ["t"], [7]⟩
      "6.6.6.6" 22 "6.6.6.6/32" (by decide) (by decide) (by rfl)).2.1
      0 ⟨"tcp", "22", some ["5.5.5.5/32"]⟩ (by rfl) (by rfl)).1⟩

/-- C4 counterexample: with the Cloudflare provider failing after its
retries and the netdata provider returning an address, the cycle aborts
instead of proceeding with the successful provider's addresses. -/
theorem provider_failure_aborts_counterexample :
    serviceUpdateOutcome (.error "cloudflare down") (.ok ["1.2.3.4"]) =
      .error "failed to fetch Cloudflare IPs: cloudflare down" ∧
    (serviceUpdateOutcome (.error "cloudflare down") (.ok ["1.2.3.4"])).isOk = false :=
  ⟨by rfl, by rfl⟩

/-- C4 amended: the cycle aborts whenever either provider fails after its
retries; partial success exists only inside the netdata provider, whose
domain loop proceeds with the gathered addresses when at least one domain
resolved, and errors only when some domain failed and no address at all was
gathered. -/
theorem provider_failure_amended :
    (∀ (e : String) (nd : Except String (List String)),
      serviceUpdateOutcome (.error e) nd =
        .error ("failed to fetch Cloudflare IPs: " ++ e)) ∧
    (∀ (cf : List String) (e : String),
      serviceUpdateOutcome (.ok cf) (.error e) =
        .error ("failed to resolve Netdata IPs: " ++ e)) ∧
    (∀ results, 0 < domainResultErrCount results → domainResultIPs results ≠ [] →
      resolveDomains results = .ok (removeDuplicates (domainResultIPs results))) ∧
    (∀ results, 0 < domainResultErrCount results → domainResultIPs results = [] →
      resolveDomains results = .error "failed to resolve any domains") := by
  refine ⟨fun e nd => rfl, fun cf e => rfl, ?_, ?_⟩
  · intro results h1 h2
    rw [resolveDomains, if_neg]
    rintro ⟨_, hemp⟩
    exact h2 (List.isEmpty_iff.mp hemp)
  · intro results h1 h2
    rw [resolveDomains, if_pos ⟨h1, by rw [h2]; rfl⟩]

/-- C4 witness: one failed domain and one resolved domain still yield the
resolved address. -/
theorem provider_failure_amended_witness :
    resolveDomains [.error "dns fail", .ok ["1.1.1.1"]] = .ok ["1.1.1.1"] :=
  provider_failure_amended.2.2.1 [.error "dns fail", .ok ["1.1.1.1"]]
    (by decide) (by decide)

/-- C5 counterexample: with a malformed source IP, `AddSSHRule` still
fetches the firewall snapshot (the fetch precedes validation), refuting
"fails without fetching the firewall"; it does fail and submits nothing. -/
theorem invalid_ip_fetches_counterexample :
    (validateAndNormalizeSources ["not-an-ip"]).isOk = false ∧
    (runAllowCurrentIPOps sampleFw "not-an-ip" 22 false).fst = [DOOp.getFirewall] ∧
    DOOp.getFirewall ∈ (runAllowCurrentIPOps sampleFw "not-an-ip" 22 false).fst ∧
    (runAllowCurrentIPOps sampleFw "not-an-ip" 22 false).snd =
      .error "invalid IP address or CIDR block: not-an-ip" :=
  ⟨by decide, by rfl, by decide, by rfl⟩

/-- C5 amended: an out-of-range port is rejected by the command before any
firewall operation; a malformed source IP makes the operation fail after
the snapshot fetch but before any update submission. -/
theorem validation_order_amended :
    (∀ (fw : Firewall) (ip : String) (port : Int) (mode : Bool),
      (port ≤ 0 ∨ port > 65535) →
      runAllowCurrentIPOps fw ip port mode =
        ([], .error ("invalid port " ++ toString port ++ " (must be 1-65535)"))) ∧
    (∀ (fw : Firewall) (ip : String) (port : Int) (mode : Bool) (e : String),
      1 ≤ port → port ≤ 65535 →
      validateAndNormalizeSources [ip] = .error e →
      runAllowCurrentIPOps fw ip port mode = ([DOOp.getFirewall], .error e)) := by
  constructor
  · intro fw ip port mode hbad
    rw [runAllowCurrentIPOps, if_pos hbad]
  · intro fw ip port mode e h1 h2 hv
    have hok : ¬(port ≤ 0 ∨ port > 65535) := by omega
    rw [runAllowCurrentIPOps, if_neg hok, addSSHRuleOps, addSSHRule, hv]

/-- C5 witness: port 0 is rejected with no firewall operation, and a
malformed IP on a valid port yields the fetch-only trace. -/
theorem validation_order_amended_witness :
    runAllowCurrentIPOps sampleFw "8.8.8.8" 0 false =
      ([], .error "invalid port 0 (must be 1-65535)") ∧
    runAllowCurrentIPOps sampleFw "bad" 22 false =
      ([DOOp.getFirewall], .error "invalid IP address or CIDR block: bad") :=
  ⟨validation_order_amended.1 sampleFw "8.8.8.8" 0 false (by decide),
   validation_order_amended.2 sampleFw "bad" 22 false
     "invalid IP address or CIDR block: bad" (by decide) (by decide) (by rfl)⟩

/-- C6 counterexample: the no-op run (IP already present) and the changed
run (IP absent) return the same value `ok ()` to the caller, so "no rule
change needed" versus "rule changed" is not discoverable from the returned
value, although the two runs have different effects. -/
theorem noop_not_discoverable_counterexample :
    addSSHRule sampleFw "5.5.5.5" 22 false = .ok none ∧
    addSSHRule sampleFw "6.6.6.6" 22 false ≠ .ok none ∧
    addSSHRuleRet sampleFw "5.5.5.5" 22 false = addSSHRuleRet sampleFw "6.6.6.6" 22 false :=
  ⟨by rfl, by decide, by rfl⟩

/-- C6 amended: in append mode with the normalized IP already present the
upsert is a no-op (no update submitted, firewall unchanged) and returns a
bare success, but the returned value is the same bare success as in the
rule-changed case, so the distinction is only logged, not returned. -/
theorem noop_amended :
    (∀ (fw : Firewall) (ip : String) (port : Int) (v : String) (idx : Nat)
        (rule : InboundRule),
      validateAndNormalizeSources [ip] = .ok [v] →
      findFirstTcp fw.InboundRules port = some (idx, rule) →
      (ruleAddrs rule).contains v = true →
      addSSHRule fw ip port false = .ok none ∧
      addSSHRuleRet fw ip port false = .ok ()) ∧
    (∀ (fw : Firewall) (ip : String) (port : Int) (mode : Bool)
        (req : FirewallRequest),
      addSSHRule fw ip port mode = .ok (some req) →
      addSSHRuleRet fw ip port mode = .ok ()) := by
  constructor
  · intro fw ip port v idx rule hv hf hcont
    have h1 : addSSHRule fw ip port false = .ok none := by
      rw [addSSHRule, hv, hf]
      simp only [hcont]
      rfl
    exact ⟨h1, by rw [addSSHRuleRet, h1]⟩
  · intro fw ip port mode req h
    rw [addSSHRuleRet, h]

/-- C6 witness: the no-op case on the sample snapshot. -/
theorem noop_amended_witness :
    addSSHRule sampleFw "5.5.5.5" 22 false = .ok none ∧
    addSSHRuleRet sampleFw "5.5.5.5" 22 false = .ok () :=
  noop_amended.1 sampleFw "5.5.5.5" 22 "5.5.5.5/32" 0
    ⟨"tcp", "22", some ["5.5.5.5/32"]⟩ (by rfl) (by rfl) (by rfl)

/-- C7 counterexample: `::ffff:1.2.3.4` parses as a bare IPv6 address, yet
the normalizer appends `/32` (Go's `To4()` is non-nil on IPv4-mapped
addresses), not `/128` as the claim requires for IPv6 literals. -/
theorem normalize_mapped_ipv6_counterexample :
    goParseIP "::ffff:1.2.3.4" =
      some (GoIP.v6 [0, 0, 0, 0, 0, 0, 0, 0, 0, 0, 255, 255, 1, 2, 3, 4]) ∧
    normalizeSource "::ffff:1.2.3.4" = .ok "::ffff:1.2.3.4/32" ∧
    normalizeSource "::ffff:1.2.3.4" ≠ .ok "::ffff:1.2.3.4/128" :=
  ⟨by rfl, by rfl, by decide⟩

/-- C7 amended: strings parsing as IP addresses get `/32` when the parsed
value is IPv4 or IPv4-mapped (`To4()` non-nil) — which covers every bare
IPv4 string — and `/128` otherwise; IPv4-mapped IPv6 literals therefore get
`/32`.  Valid CIDR blocks pass unchanged and everything else is an
invalid-address error. -/
theorem normalize_amended : ∀ s : String,
    (∀ ip, goParseIP s = some ip → ip.to4IsSome = true →
      normalizeSource s = .ok (s ++ "/32")) ∧
    (∀ ip, goParseIP s = some ip → ip.to4IsSome = false →
      normalizeSource s = .ok (s ++ "/128")) ∧
    (goParseIP s = none → goParseCIDROk s = true → normalizeSource s = .ok s) ∧
    (goParseIP s = none → goParseCIDROk s = false →
      normalizeSource s = .error ("invalid IP address or CIDR block: " ++ s)) := by
  intro s
  refine ⟨?_, ?_, ?_, ?_⟩
  · intro ip h1 h2
    rw [normalizeSource, h1]
    simp [h2]
  · intro ip h1 h2
    rw [normalizeSource, h1]
    simp [h2]
  · intro h1 h2
    rw [normalizeSource, h1]
    simp [h2]
  · intro h1 h2
    rw [normalizeSource, h1]
    simp [h2]

/-- C7 witness: the amended mapping at the spec's own examples. -/
theorem normalize_amended_witness :
    normalizeSource "10.0.0.1" = .ok "10.0.0.1/32" ∧
    normalizeSource "::1" = .ok "::1/128" ∧
    normalizeSource "10.0.0.0/8" = .ok "10.0.0.0/8" ∧
    normalizeSource "not-an-ip" = .error "invalid IP address or CIDR block: not-an-ip" :=
  ⟨(normalize_amended "10.0.0.1").1 (GoIP.v4 [10, 0, 0, 1]) (by rfl) (by rfl),
   (normalize_amended "::1").2.1
     (GoIP.v6 [0, 0, 0, 0, 0, 0, 0, 0, 0, 0, 0, 0, 0, 0, 0, 1]) (by rfl) (by rfl),
   (normalize_amended "10.0.0.0/8").2.2.1 (by rfl) (by rfl),
   (normalize_amended "not-an-ip").2.2.2 (by rfl) (by rfl)⟩

/-- C8 counterexample: with an empty managed-rule list, validation never
runs, so an invalid source list does not prevent `UpdateFirewallRules` from
submitting an update. -/
theorem bulk_empty_rules_submits_counterexample :
    (validateAndNormalizeSources ["bad"]).isOk = false ∧
    hasSubmit (updateFirewallRulesOps sampleFw [] ["bad"]).fst = true ∧
    (updateFirewallRulesOps sampleFw [] ["bad"]).snd = .ok () :=
  ⟨by decide, by rfl, by rfl⟩

/-- C8 amended: provided at least one managed rule is desired, any invalid
source entry makes the bulk reconciliation return the validation error
after the fetch, with no update submission. -/
theorem bulk_atomic_failure_amended :
    ∀ (fw : Firewall) (rules : List FirewallRule) (ips : List String) (e : String),
      rules ≠ [] → validateAndNormalizeSources ips = .error e →
      updateFirewallRulesOps fw rules ips = ([DOOp.getFirewall], .error e) := by
  intro fw rules ips e hne hv
  cases rules with
  | nil => exact absurd rfl hne
  | cons r rest =>
      rw [updateFirewallRulesOps, updateFirewallRulesEff, computeNewInboundRules,
        buildManagedRules, hv]

/-- C8 witness: one managed rule plus one invalid source: fetch-only trace
and the validation error. -/
theorem bulk_atomic_failure_amended_witness :
    updateFirewallRulesOps sampleFw [⟨22, "tcp", []⟩] ["bad"] =
      ([DOOp.getFirewall], .error "invalid IP address or CIDR block: bad") :=
  bulk_atomic_failure_amended sampleFw [⟨22, "tcp", []⟩] ["bad"]
    "invalid IP address or CIDR block: bad" (by simp) (by rfl)

/-- C9 counterexample: the combined source list handed to reconciliation is
plain concatenation; on the claim's own example it keeps the duplicate. -/
theorem aggregate_no_cross_dedup_counterexample :
    serviceCombineIPs ["a", "b"] ["b", "c"] = ["a", "b", "b", "c"] ∧
    serviceCombineIPs ["a", "b"] ["b", "c"] ≠ ["a", "b", "c"] ∧
    ¬ (serviceCombineIPs ["a", "b"] ["b", "c"]).Nodup :=
  ⟨by rfl, by decide, by decide⟩

/-- C9 amended: `removeDuplicates` (applied inside the netdata provider)
removes duplicates keeping first occurrences in order; but the
cross-provider aggregation is plain concatenation in provider order and
performs no deduplication, so the combined list can contain duplicates. -/
theorem aggregate_amended :
    (∀ cf nd : List String, serviceCombineIPs cf nd = cf ++ nd) ∧
    (∀ l : List String, (removeDuplicates l).Nodup) ∧
    (∀ l : List String, (removeDuplicates l).Sublist l) ∧
    (∀ (l : List String) (x : String), x ∈ removeDuplicates l ↔ x ∈ l) ∧
    removeDuplicates ["a", "b", "b", "c"] = ["a", "b", "c"] := by
  refine ⟨fun cf nd => rfl, ?_, ?_, ?_, by rfl⟩
  · intro l
    exact removeDuplicatesAux_nodup l []
  · intro l
    exact removeDuplicatesAux_sublist l []
  · intro l x
    rw [removeDuplicates, removeDuplicatesAux_mem]
    simp

end DOAllow
